import Mathlib

/-!
A shallow embedding of the lexer in `src/rust/src/lex/mod.rs` (the token
recognition core of a JavaScript/TypeScript minifier), together with proofs
about its behaviour.

Conventions of the embedding:
* The source buffer is a `List Nat` of byte values; the cursor is a `Nat`
  offset.  `Lexer` mirrors the Rust struct `Lexer { source, next }`.
* Fallible operations return `Except SyntaxError _`; a `SyntaxError` carries
  the error kind and the value of `next` at the point of failure, exactly as
  `Lexer::error` records `self.next`.
* Rust loops are written as fuel recursion; every loop of the source consumes
  at least one byte per iteration, so fuel `remaining + 1` is always enough.
  Running out of fuel yields an `UnexpectedEnd` error (unreachable for the
  fuel supplied by the wrappers).
* The character filters live in `crate::char`, which is not part of the
  sources provided; they are modelled from the spec (see the doc comments).
-/

/-- Token types, from `crate::token::TokenType` as used by `lex/mod.rs`. -/
inductive TokenType where
  | Ampersand | AmpersandAmpersand | AmpersandAmpersandEquals | AmpersandEquals
  | Asterisk | AsteriskAsterisk | AsteriskAsteriskEquals | AsteriskEquals
  | Bar | BarBar | BarBarEquals | BarEquals
  | BraceClose | BraceOpen | BracketClose | BracketOpen
  | Caret | CaretEquals
  | ChevronLeft | ChevronLeftChevronLeft | ChevronLeftChevronLeftEquals | ChevronLeftEquals
  | ChevronRight | ChevronRightChevronRight | ChevronRightChevronRightChevronRight
  | ChevronRightChevronRightChevronRightEquals | ChevronRightChevronRightEquals
  | ChevronRightEquals
  | Colon | Comma | Dot | DotDotDot
  | Equals | EqualsChevronRight | EqualsEquals | EqualsEqualsEquals
  | Exclamation | ExclamationEquals | ExclamationEqualsEquals
  | Hyphen | HyphenEquals | HyphenHyphen
  | ParenthesisClose | ParenthesisOpen
  | Percent | PercentEquals
  | Plus | PlusEquals | PlusPlus
  | Question | QuestionDot | QuestionQuestion
  | Semicolon | Slash | SlashEquals | Tilde
  | KeywordAs | KeywordAsync | KeywordAwait | KeywordBreak | KeywordCase
  | KeywordCatch | KeywordClass | KeywordConst | KeywordConstructor
  | KeywordContinue | KeywordDebugger | KeywordDefault | KeywordDelete
  | KeywordDo | KeywordElse | KeywordExport | KeywordExtends | KeywordFinally
  | KeywordFor | KeywordFrom | KeywordFunction | KeywordGet | KeywordIf
  | KeywordImport | KeywordIn | KeywordInstanceof | KeywordLet | KeywordNew
  | KeywordOf | KeywordReturn | KeywordSet | KeywordStatic | KeywordSuper
  | KeywordSwitch | KeywordThis | KeywordThrow | KeywordTry | KeywordTypeof
  | KeywordVar | KeywordVoid | KeywordWhile | KeywordWith | KeywordYield
  | LiteralFalse | LiteralNull | LiteralTrue | LiteralUndefined
  | ChevronLeftAsTypeArgumentsList
  | CommentMultiple | CommentSingle
  | EOF
  | Identifier
  | LiteralNumber | LiteralNumberBin | LiteralNumberHex | LiteralNumberOct
  | LiteralRegex | LiteralString
  | LiteralTemplatePartString | LiteralTemplatePartStringEnd
deriving DecidableEq, Repr

/-- Error kinds, from `crate::error::SyntaxErrorType` (the four kinds the lexer
raises). -/
inductive SyntaxErrorType where
  | UnexpectedEnd
  | ExpectedNotFound
  | LineTerminatorInString
  | LineTerminatorInRegex
deriving DecidableEq, Repr

/-- A syntax error: the kind plus the value of `next` at the point where
`Lexer::error` was called (the spec: "Each carries the source and the offset at
which the error was detected"; the source handle is implicit here since it
never changes). -/
structure SyntaxError where
  typ : SyntaxErrorType
  pos : Nat
deriving DecidableEq, Repr

/-- A token: its source range `[start, stop)` plus type and the
`preceded_by_line_terminator` flag, from `crate::token::Token`. -/
structure Token where
  start : Nat
  stop : Nat
  typ : TokenType
  plt : Bool
deriving DecidableEq, Repr

/-- The lexer state, from `struct Lexer { source: Source, next: usize }`. -/
structure Lexer where
  source : List Nat
  next : Nat
deriving DecidableEq, Repr

/-- Modelled from the spec: the `WHITESPACE` char filter of `crate::char`
(not in the provided sources): ASCII whitespace (tab, line feed, vertical tab,
form feed, carriage return, space); the spec requires at minimum ASCII
whitespace with `\n` included. -/
def WHITESPACE (c : Nat) : Bool :=
  c = 9 || c = 10 || c = 11 || c = 12 || c = 13 || c = 32

/-- `DIGIT`: Modelled from the spec: the decimal digit filter of
`crate::char`. -/
def DIGIT (c : Nat) : Bool := 48 ≤ c && c ≤ 57

/-- `DIGIT_BIN`: Modelled from the spec: the binary digit filter of
`crate::char`. -/
def DIGIT_BIN (c : Nat) : Bool := c = 48 || c = 49

/-- `DIGIT_OCT`: Modelled from the spec: the octal digit filter of
`crate::char`. -/
def DIGIT_OCT (c : Nat) : Bool := 48 ≤ c && c ≤ 55

/-- `DIGIT_HEX`: Modelled from the spec: the hexadecimal digit filter of
`crate::char`. -/
def DIGIT_HEX (c : Nat) : Bool :=
  (48 ≤ c && c ≤ 57) || (97 ≤ c && c ≤ 102) || (65 ≤ c && c ≤ 70)

/-- `ID_START`: Modelled from the spec: identifier-start bytes of
`crate::char`: ASCII letters, `_`, `$`. -/
def ID_START (c : Nat) : Bool :=
  (65 ≤ c && c ≤ 90) || (97 ≤ c && c ≤ 122) || c = 95 || c = 36

/-- `ID_CONTINUE`: Modelled from the spec: identifier-continue bytes of
`crate::char`: identifier-start bytes plus decimal digits. -/
def ID_CONTINUE (c : Nat) : Bool := ID_START c || DIGIT c

/-- Modelled from the spec: the context filter used for `<` reclassification in
`crate::char`: identifier-continue bytes plus `)` and `]`.  The sentinel 0xFF
satisfies no filter. -/
def ID_CONTINUE_OR_PARENTHESIS_CLOSE_OR_BRACKET_CLOSE (c : Nat) : Bool :=
  ID_CONTINUE c || c = 41 || c = 93

/-- `ID_START_CHARSTR`: Modelled from the spec: the byte string enumerating all
identifier-start bytes, used to build one single-byte matcher pattern each. -/
def ID_START_CHARSTR : List Nat :=
  (String.data "abcdefghijklmnopqrstuvwxyzABCDEFGHIJKLMNOPQRSTUVWXYZ_$").map Char.toNat

/-- Bytes of an ASCII string literal (helper for pattern tables and tests). -/
def strBytes (s : String) : List Nat := s.data.map Char.toNat

/-- `xs.takeWhile`-length: number of leading bytes satisfying `f`
(the semantics of `Lexer::while_chars`). -/
def countWhile (f : Nat → Bool) : List Nat → Nat
  | [] => 0
  | x :: xs => if f x then countWhile f xs + 1 else 0

/-- Index just after the first occurrence of `c`, `memchr` style:
`none` when absent. -/
def firstIdx (c : Nat) : List Nat → Option Nat
  | [] => none
  | x :: xs => if x = c then some 0 else (firstIdx c xs).map (· + 1)

/-- Length of the longest prefix containing none of `a`, `b`, `c`
(`memchr3(...).unwrap_or(remaining)`, the semantics of
`Lexer::while_not_3_chars`). -/
def countWhileNot3 (a b c : Nat) (xs : List Nat) : Nat :=
  countWhile (fun x => !(x = a || x = b || x = c)) xs

/-- Index just after the first occurrence of the two-byte sequence `*/`
(the `COMMENT_END` Aho–Corasick automaton of the source: `m.end()` of the
first match). -/
def findStarSlash : List Nat → Option Nat
  | [] => none
  | x :: xs => if x = 42 ∧ xs.headD 0 = 47 then some 2 else (findStarSlash xs).map (· + 1)

/-- `p` is a prefix of `xs` (anchored match of one pattern). -/
def isPre : List Nat → List Nat → Bool
  | [], _ => true
  | _ :: _, [] => false
  | a :: as, b :: bs => a = b && isPre as bs

namespace Lexer

/-- `Lexer::end`: the length of the source. -/
def endPos (l : Lexer) : Nat := l.source.length

/-- `Lexer::remaining`. -/
def remaining (l : Lexer) : Nat := l.endPos - l.next

/-- `Lexer::at_end`: `next >= end`. -/
def at_end (l : Lexer) : Bool := l.endPos ≤ l.next

/-- `Lexer::prev_char`: the byte at `next - 1`, or the sentinel `0xFF` when
`next == 0` (or out of bounds). -/
def prev_char (l : Lexer) : Nat :=
  if l.next = 0 then 255 else l.source.getD (l.next - 1) 255

/-- `Lexer::error`: an error of the given kind at the current offset. -/
def error (l : Lexer) (typ : SyntaxErrorType) : SyntaxError := ⟨typ, l.next⟩

/-- `Lexer::peek_or_eof`. -/
def peek_or_eof (l : Lexer) (n : Nat) : Option Nat := l.source.get? (l.next + n)

/-- `Lexer::peek`: fails with `UnexpectedEnd` (at the current offset) when out
of bounds. -/
def peek (l : Lexer) (n : Nat) : Except SyntaxError Nat :=
  match l.peek_or_eof n with
  | some c => .ok c
  | none => .error (l.error .UnexpectedEnd)

/-- `Lexer::checkpoint`: a snapshot of `next`. -/
def checkpoint (l : Lexer) : Nat := l.next

/-- `Lexer::since_checkpoint`: the range `[cp, next)`. -/
def since_checkpoint (l : Lexer) (cp : Nat) : Nat × Nat := (cp, l.next)

/-- `Lexer::apply_checkpoint`: restore `next`. -/
def apply_checkpoint (l : Lexer) (cp : Nat) : Lexer := { l with next := cp }

/-- `Lexer::n`: a match of length `k`, failing `UnexpectedEnd` when fewer than
`k` bytes remain.  (A `Match` is just its length here.) -/
def nBytes (l : Lexer) (k : Nat) : Except SyntaxError Nat :=
  if l.endPos < l.next + k then .error (l.error .UnexpectedEnd) else .ok k

/-- `Lexer::if_char`: a match of length 1 when the current byte is `c`, else
length 0. -/
def if_char (l : Lexer) (c : Nat) : Nat :=
  if l.peek_or_eof 0 = some c then 1 else 0

/-- `Lexer::through_char`: length up to and including the next occurrence of
`c`, failing `UnexpectedEnd` when absent. -/
def through_char (l : Lexer) (c : Nat) : Except SyntaxError Nat :=
  match firstIdx c (l.source.drop l.next) with
  | some p => .ok (p + 1)
  | none => .error (l.error .UnexpectedEnd)

/-- `Lexer::while_not_3_chars`. -/
def while_not_3_chars (l : Lexer) (a b c : Nat) : Nat :=
  countWhileNot3 a b c (l.source.drop l.next)

/-- `Lexer::while_chars`. -/
def while_chars (l : Lexer) (f : Nat → Bool) : Nat :=
  countWhile f (l.source.drop l.next)

/-- `Lexer::consume`: advance by a match's length. -/
def consume (l : Lexer) (m : Nat) : Lexer := { l with next := l.next + m }

/-- `Lexer::skip_expect`: unchecked advance. -/
def skip_expect (l : Lexer) (n : Nat) : Lexer := { l with next := l.next + n }

end Lexer

/-- `LexMode`. -/
inductive LexMode where
  | SlashIsRegex
  | Standard
deriving DecidableEq, Repr

/-- `OPERATORS_MAPPING`: every operator / punctuator with its byte literal. -/
def OPERATORS_MAPPING : List (TokenType × List Nat) := [
  (.Ampersand, strBytes "&"),
  (.AmpersandAmpersand, strBytes "&&"),
  (.AmpersandAmpersandEquals, strBytes "&&="),
  (.AmpersandEquals, strBytes "&="),
  (.Asterisk, strBytes "*"),
  (.AsteriskAsterisk, strBytes "**"),
  (.AsteriskAsteriskEquals, strBytes "**="),
  (.AsteriskEquals, strBytes "*="),
  (.Bar, strBytes "|"),
  (.BarBar, strBytes "||"),
  (.BarBarEquals, strBytes "||="),
  (.BarEquals, strBytes "|="),
  (.BraceClose, strBytes "\x7d"),
  (.BraceOpen, strBytes "\x7b"),
  (.BracketClose, strBytes "]"),
  (.BracketOpen, strBytes "["),
  (.Caret, strBytes "^"),
  (.CaretEquals, strBytes "^="),
  (.ChevronLeft, strBytes "<"),
  (.ChevronLeftChevronLeft, strBytes "<<"),
  (.ChevronLeftChevronLeftEquals, strBytes "<<="),
  (.ChevronLeftEquals, strBytes "<="),
  (.ChevronRight, strBytes ">"),
  (.ChevronRightChevronRight, strBytes ">>"),
  (.ChevronRightChevronRightChevronRight, strBytes ">>>"),
  (.ChevronRightChevronRightChevronRightEquals, strBytes ">>>="),
  (.ChevronRightChevronRightEquals, strBytes ">>="),
  (.ChevronRightEquals, strBytes ">="),
  (.Colon, strBytes ":"),
  (.Comma, strBytes ","),
  (.Dot, strBytes "."),
  (.DotDotDot, strBytes "..."),
  (.Equals, strBytes "="),
  (.EqualsChevronRight, strBytes "=>"),
  (.EqualsEquals, strBytes "=="),
  (.EqualsEqualsEquals, strBytes "==="),
  (.Exclamation, strBytes "!"),
  (.ExclamationEquals, strBytes "!="),
  (.ExclamationEqualsEquals, strBytes "!=="),
  (.Hyphen, strBytes "-"),
  (.HyphenEquals, strBytes "-="),
  (.HyphenHyphen, strBytes "--"),
  (.ParenthesisClose, strBytes ")"),
  (.ParenthesisOpen, strBytes "("),
  (.Percent, strBytes "%"),
  (.PercentEquals, strBytes "%="),
  (.Plus, strBytes "+"),
  (.PlusEquals, strBytes "+="),
  (.PlusPlus, strBytes "++"),
  (.Question, strBytes "?"),
  (.QuestionDot, strBytes "?."),
  (.QuestionQuestion, strBytes "??"),
  (.Semicolon, strBytes ";"),
  (.Slash, strBytes "/"),
  (.SlashEquals, strBytes "/="),
  (.Tilde, strBytes "~")]

/-- `KEYWORDS_MAPPING`: every keyword plus the four literal keywords. -/
def KEYWORDS_MAPPING : List (TokenType × List Nat) := [
  (.KeywordAs, strBytes "as"),
  (.KeywordAsync, strBytes "async"),
  (.KeywordAwait, strBytes "await"),
  (.KeywordBreak, strBytes "break"),
  (.KeywordCase, strBytes "case"),
  (.KeywordCatch, strBytes "catch"),
  (.KeywordClass, strBytes "class"),
  (.KeywordConst, strBytes "const"),
  (.KeywordConstructor, strBytes "constructor"),
  (.KeywordContinue, strBytes "continue"),
  (.KeywordDebugger, strBytes "debugger"),
  (.KeywordDefault, strBytes "default"),
  (.KeywordDelete, strBytes "delete"),
  (.KeywordDo, strBytes "do"),
  (.KeywordElse, strBytes "else"),
  (.KeywordExport, strBytes "export"),
  (.KeywordExtends, strBytes "extends"),
  (.KeywordFinally, strBytes "finally"),
  (.KeywordFor, strBytes "for"),
  (.KeywordFrom, strBytes "from"),
  (.KeywordFunction, strBytes "function"),
  (.KeywordGet, strBytes "get"),
  (.KeywordIf, strBytes "if"),
  (.KeywordImport, strBytes "import"),
  (.KeywordIn, strBytes "in"),
  (.KeywordInstanceof, strBytes "instanceof"),
  (.KeywordLet, strBytes "let"),
  (.KeywordNew, strBytes "new"),
  (.KeywordOf, strBytes "of"),
  (.KeywordReturn, strBytes "return"),
  (.KeywordSet, strBytes "set"),
  (.KeywordStatic, strBytes "static"),
  (.KeywordSuper, strBytes "super"),
  (.KeywordSwitch, strBytes "switch"),
  (.KeywordThis, strBytes "this"),
  (.KeywordThrow, strBytes "throw"),
  (.KeywordTry, strBytes "try"),
  (.KeywordTypeof, strBytes "typeof"),
  (.KeywordVar, strBytes "var"),
  (.KeywordVoid, strBytes "void"),
  (.KeywordWhile, strBytes "while"),
  (.KeywordWith, strBytes "with"),
  (.KeywordYield, strBytes "yield"),
  (.LiteralFalse, strBytes "false"),
  (.LiteralNull, strBytes "null"),
  (.LiteralTrue, strBytes "true"),
  (.LiteralUndefined, strBytes "undefined")]

/-- `KEYWORDS_MAPPING.contains_key(&typ)`. -/
def isKeyword (t : TokenType) : Bool := KEYWORDS_MAPPING.any (fun kv => kv.1 = t)

/-- `PATTERNS`: the unified pattern list driving the matcher: operators,
keywords, comment openers, one single-byte pattern per identifier-start byte,
the ten digit bytes, the radix prefixes, the `.digit` and `?.digit`
disambiguation patterns, the string delimiters, and the backtick.
(The iteration order of the Rust `HashMap`s is irrelevant: all pattern byte
strings are distinct, so the longest-leftmost match never ties.) -/
def PATTERNS : List (TokenType × List Nat) :=
  OPERATORS_MAPPING ++ KEYWORDS_MAPPING ++
  [(.CommentMultiple, strBytes "/*"), (.CommentSingle, strBytes "//")] ++
  ID_START_CHARSTR.map (fun c => (TokenType.Identifier, [c])) ++
  (strBytes "0123456789").map (fun c => (TokenType.LiteralNumber, [c])) ++
  [(.LiteralNumberBin, strBytes "0b"), (.LiteralNumberBin, strBytes "0B"),
   (.LiteralNumberHex, strBytes "0x"), (.LiteralNumberHex, strBytes "0X"),
   (.LiteralNumberOct, strBytes "0o"), (.LiteralNumberOct, strBytes "0O")] ++
  (strBytes "0123456789").map (fun c => (TokenType.LiteralNumber, [46, c])) ++
  (strBytes "0123456789").map (fun c => (TokenType.Question, [63, 46, c])) ++
  [(.LiteralString, strBytes "\x22"), (.LiteralString, strBytes "'"),
   (.LiteralTemplatePartString, strBytes "\x60")]

/-- Anchored longest-leftmost multi-pattern matching (the semantics of the
`MATCHER` Aho–Corasick automaton with `anchored(true)` and
`MatchKind::LeftmostLongest`): the longest pattern that is a prefix of `xs`,
with its token type.  All pattern strings are distinct, so the tie-break
between equal-length matches is immaterial. -/
def bestMatch : List (TokenType × List Nat) → List Nat → Option (TokenType × Nat)
  | [], _ => none
  | (t, p) :: rest, xs =>
    let r := bestMatch rest xs
    if isPre p xs && r.all (fun q => q.2 < p.length) then some (t, p.length) else r

/-- `Lexer::aho_corasick(&MATCHER)`: run the matcher at the cursor, failing
`ExpectedNotFound` when nothing matches. -/
def Lexer.findMatch (l : Lexer) : Except SyntaxError (TokenType × Nat) :=
  match bestMatch PATTERNS (l.source.drop l.next) with
  | some r => .ok r
  | none => .error (l.error .ExpectedNotFound)

/-- `lex_multiple_comment`: consume `/*`, then advance through the next `*/`
(via the `COMMENT_END` automaton, which fails `ExpectedNotFound` when there is
no further `*/`). -/
def lex_multiple_comment (l : Lexer) : Except SyntaxError Lexer :=
  let l := l.skip_expect 2
  match findStarSlash (l.source.drop l.next) with
  | some m => .ok (l.consume m)
  | none => .error (l.error .ExpectedNotFound)

/-- `lex_single_comment`: consume `//`, then advance through the next line
feed (failing `UnexpectedEnd` when there is none). -/
def lex_single_comment (l : Lexer) : Except SyntaxError Lexer :=
  let l := l.skip_expect 2
  match l.through_char 10 with
  | .ok m => .ok (l.consume m)
  | .error e => .error e

/-- `lex_identifier`: consume the starter byte, then all identifier-continue
bytes. -/
def lex_identifier (l : Lexer) (preceded_by_line_terminator : Bool) :
    Except SyntaxError (Token × Lexer) :=
  let cp := l.checkpoint
  let l := l.skip_expect 1
  let l := l.consume (l.while_chars ID_CONTINUE)
  .ok (⟨cp, l.next, .Identifier, preceded_by_line_terminator⟩, l)

/-- `lex_number`: integer digits, optional `.`, fractional digits, then an
optional exponent: on `e`/`E` consume it, peek one byte (failing
`UnexpectedEnd` at EOF), consume a sign if present, then exponent digits. -/
def lex_number (l : Lexer) (preceded_by_line_terminator : Bool) :
    Except SyntaxError (Token × Lexer) :=
  let cp := l.checkpoint
  let l := l.consume (l.while_chars DIGIT)
  let l := l.consume (l.if_char 46)
  let l := l.consume (l.while_chars DIGIT)
  match l.peek_or_eof 0 with
  | some c =>
    if c = 101 || c = 69 then
      let l := l.skip_expect 1
      match l.peek_or_eof 0 with
      | none => .error (l.error .UnexpectedEnd)
      | some d =>
        let l := if d = 43 || d = 45 then l.skip_expect 1 else l
        let l := l.consume (l.while_chars DIGIT)
        .ok (⟨cp, l.next, .LiteralNumber, preceded_by_line_terminator⟩, l)
    else .ok (⟨cp, l.next, .LiteralNumber, preceded_by_line_terminator⟩, l)
  | none => .ok (⟨cp, l.next, .LiteralNumber, preceded_by_line_terminator⟩, l)

/-- `lex_number_bin`: consume the `0b`/`0B` prefix then binary digits. -/
def lex_number_bin (l : Lexer) (preceded_by_line_terminator : Bool) :
    Except SyntaxError (Token × Lexer) :=
  let cp := l.checkpoint
  let l := l.skip_expect 2
  let l := l.consume (l.while_chars DIGIT_BIN)
  .ok (⟨cp, l.next, .LiteralNumber, preceded_by_line_terminator⟩, l)

/-- `lex_number_hex`: consume the `0x`/`0X` prefix then hex digits. -/
def lex_number_hex (l : Lexer) (preceded_by_line_terminator : Bool) :
    Except SyntaxError (Token × Lexer) :=
  let cp := l.checkpoint
  let l := l.skip_expect 2
  let l := l.consume (l.while_chars DIGIT_HEX)
  .ok (⟨cp, l.next, .LiteralNumber, preceded_by_line_terminator⟩, l)

/-- `lex_number_oct`: consume the `0o`/`0O` prefix then octal digits. -/
def lex_number_oct (l : Lexer) (preceded_by_line_terminator : Bool) :
    Except SyntaxError (Token × Lexer) :=
  let cp := l.checkpoint
  let l := l.skip_expect 2
  let l := l.consume (l.while_chars DIGIT_OCT)
  .ok (⟨cp, l.next, .LiteralNumber, preceded_by_line_terminator⟩, l)

/-- The scanning loop of `lex_regex`, with explicit fuel (each iteration of
the Rust loop consumes at least one byte).  Returns the lexer positioned just
after the closing slash.  Match arms in source order: `\\`, `/` outside a
charset, `[`, `]` inside a charset, `\n`, anything else. -/
def lex_regex_loop : Nat → Bool → Lexer → Except SyntaxError Lexer
  | 0, _, l => .error (l.error .UnexpectedEnd)
  | fuel + 1, in_charset, l =>
    match l.peek_or_eof 0 with
    | none => .error (l.error .UnexpectedEnd)
    | some c =>
      if c = 92 then
        let l := l.skip_expect 1
        -- Cannot escape a line terminator (the check is `peek(1)` in the
        -- source, i.e. two bytes beyond the backslash).
        match l.peek_or_eof 1 with
        | none => .error (l.error .UnexpectedEnd)
        | some d =>
          if d = 10 then .error (l.error .LineTerminatorInRegex)
          else lex_regex_loop fuel in_charset (l.skip_expect 1)
      else if c = 47 && !in_charset then .ok (l.skip_expect 1)
      else if c = 91 then lex_regex_loop fuel true (l.skip_expect 1)
      else if c = 93 && in_charset then lex_regex_loop fuel false (l.skip_expect 1)
      else if c = 10 then .error (l.error .LineTerminatorInRegex)
      else lex_regex_loop fuel in_charset (l.skip_expect 1)

/-- `lex_regex`: consume the opening slash, scan the body tracking `[`..`]`
character classes, then consume the identifier-continue flag suffix. -/
def lex_regex (l : Lexer) (preceded_by_line_terminator : Bool) :
    Except SyntaxError (Token × Lexer) :=
  let cp := l.checkpoint
  match l.nBytes 1 with
  | .error e => .error e
  | .ok m =>
    match lex_regex_loop (l.remaining + 1) false (l.consume m) with
    | .error e => .error e
    | .ok l2 =>
      let l2 := l2.consume (l2.while_chars ID_CONTINUE)
      .ok (⟨cp, l2.next, .LiteralRegex, preceded_by_line_terminator⟩, l2)

/-- The scanning loop of `lex_string`, with explicit fuel.  Skips to the next
of `\\` / `\n` / the quote; a backslash consumes two bytes, a line feed fails
`LineTerminatorInString` at its offset, the quote closes the string.  The
final arm is the source's `unreachable!()`. -/
def lex_string_loop (quote cp : Nat) (preceded_by_line_terminator : Bool) :
    Nat → Lexer → Except SyntaxError (Token × Lexer)
  | 0, l => .error (l.error .UnexpectedEnd)
  | fuel + 1, l =>
    let l := l.consume (l.while_not_3_chars 92 10 quote)
    match l.peek_or_eof 0 with
    | none => .error (l.error .UnexpectedEnd)
    | some c =>
      if c = 92 then
        match l.nBytes 2 with
        | .error e => .error e
        | .ok m => lex_string_loop quote cp preceded_by_line_terminator fuel (l.consume m)
      else if c = 10 then .error (l.error .LineTerminatorInString)
      else if c = quote then
        let l := l.skip_expect 1
        .ok (⟨cp, l.next, .LiteralString, preceded_by_line_terminator⟩, l)
      else .error (l.error .UnexpectedEnd) -- unreachable: while_not_3_chars stopped here

/-- `lex_string`: record the quote byte, consume it, and scan. -/
def lex_string (l : Lexer) (preceded_by_line_terminator : Bool) :
    Except SyntaxError (Token × Lexer) :=
  let cp := l.checkpoint
  match l.peek_or_eof 0 with
  | none => .error (l.error .UnexpectedEnd)
  | some quote =>
    lex_string_loop quote cp preceded_by_line_terminator (l.remaining + 1) (l.skip_expect 1)

/-- The scanning loop of `lex_template_string_continue`, with explicit fuel.
Skips to the next of `\\` / backtick / `$`; a backslash consumes two bytes, a
backtick ends the template (span recorded before the backtick is consumed),
`${` opens an interpolation hole (span recorded before the two bytes are
consumed), a lone `$` is consumed and scanning continues.  The final arm is
the source's `unreachable!()`. -/
def lex_template_loop (cp : Nat) (preceded_by_line_terminator : Bool) :
    Nat → Lexer → Except SyntaxError (Token × Lexer)
  | 0, l => .error (l.error .UnexpectedEnd)
  | fuel + 1, l =>
    let l := l.consume (l.while_not_3_chars 92 96 36)
    match l.peek_or_eof 0 with
    | none => .error (l.error .UnexpectedEnd)
    | some c =>
      if c = 92 then
        match l.nBytes 2 with
        | .error e => .error e
        | .ok m => lex_template_loop cp preceded_by_line_terminator fuel (l.consume m)
      else if c = 96 then
        .ok (⟨cp, l.next, .LiteralTemplatePartStringEnd, preceded_by_line_terminator⟩,
          l.skip_expect 1)
      else if c = 36 then
        match l.peek_or_eof 1 with
        | none => .error (l.error .UnexpectedEnd)
        | some d =>
          if d = 123 then
            .ok (⟨cp, l.next, .LiteralTemplatePartString, preceded_by_line_terminator⟩,
              l.skip_expect 2)
          else lex_template_loop cp preceded_by_line_terminator fuel (l.skip_expect 1)
      else .error (l.error .UnexpectedEnd) -- unreachable: while_not_3_chars stopped here

/-- `lex_template_string_continue`: the template continuation, also called by
the parser to resume after an interpolation hole. -/
def lex_template_string_continue (l : Lexer) (preceded_by_line_terminator : Bool) :
    Except SyntaxError (Token × Lexer) :=
  lex_template_loop l.checkpoint preceded_by_line_terminator (l.remaining + 1) l

/-- `lex_template`: consume the opening backtick, then continue. -/
def lex_template (l : Lexer) (preceded_by_line_terminator : Bool) :
    Except SyntaxError (Token × Lexer) :=
  lex_template_string_continue (l.skip_expect 1) preceded_by_line_terminator

/-- The non-comment dispatch of `lex_next` on the matched token type `typ` of
length `len`: route to a sub-lexer, or classify and emit (reclassifying `<`
after an identifier-continue / `)` / `]` byte, truncating a `?.digit` match to
the `?`, rerouting a keyword followed by an identifier-continue byte to
`lex_identifier`). -/
def lex_dispatch (l : Lexer) (plt : Bool) (mode : LexMode) (typ : TokenType) (len : Nat) :
    Except SyntaxError (Token × Lexer) :=
  if typ = .Identifier then lex_identifier l plt
  else if typ = .LiteralNumber then lex_number l plt
  else if typ = .LiteralNumberBin then lex_number_bin l plt
  else if typ = .LiteralNumberHex then lex_number_hex l plt
  else if typ = .LiteralNumberOct then lex_number_oct l plt
  else if typ = .LiteralString then lex_string l plt
  else if typ = .LiteralTemplatePartString then lex_template l plt
  else if typ = .Slash ∧ mode = .SlashIsRegex then lex_regex l plt
  else if typ = .ChevronLeft ∧
      ID_CONTINUE_OR_PARENTHESIS_CLOSE_OR_BRACKET_CLOSE l.prev_char = true then
    .ok (⟨l.next, l.next + len, .ChevronLeftAsTypeArgumentsList, plt⟩, l.consume len)
  else if typ = .Question ∧ len ≠ 1 then
    -- We've matched `?.[0-9]`: truncate to the `?` alone.
    .ok (⟨l.next, l.next + 1, typ, plt⟩, l.consume 1)
  else if isKeyword typ = true ∧
      (match l.peek_or_eof len with | some c => ID_CONTINUE c | none => false) = true then
    -- We've accidentally matched a prefix of an identifier as a keyword.
    lex_identifier l plt
  else .ok (⟨l.next, l.next + len, typ, plt⟩, l.consume len)

/-- The dispatch loop of `lex_next`, with explicit fuel: skip whitespace
(recording whether the skipped span contains a line feed), emit `EOF` at the
end of the source, skip comments and loop, otherwise dispatch on the matched
pattern. -/
def lex_next_loop (mode : LexMode) :
    Nat → Bool → Lexer → Except SyntaxError (Token × Lexer)
  | 0, _, l => .error (l.error .UnexpectedEnd)
  | fuel + 1, plt, l =>
    let ws := l.while_chars WHITESPACE
    let wsSpan := (l.source.drop l.next).take ws
    let l := l.consume ws
    let plt := plt || wsSpan.contains 10
    if l.at_end then .ok (⟨l.endPos, l.endPos, .EOF, plt⟩, l)
    else
      match l.findMatch with
      | .error e => .error e
      | .ok (typ, len) =>
        if typ = .CommentMultiple then
          match lex_multiple_comment l with
          | .ok l2 => lex_next_loop mode fuel plt l2
          | .error e => .error e
        else if typ = .CommentSingle then
          match lex_single_comment l with
          | .ok l2 => lex_next_loop mode fuel plt l2
          | .error e => .error e
        else lex_dispatch l plt mode typ len

/-- `lex_next`: one token from the current cursor position.  (The fuel
`remaining + 1` is always sufficient: every comment iteration consumes at
least two bytes.) -/
def lex_next (l : Lexer) (mode : LexMode) : Except SyntaxError (Token × Lexer) :=
  lex_next_loop mode (l.remaining + 1) false l

/-- Repeatedly call `lex_next`, collecting `k` tokens (helper for end-to-end
scenarios). -/
def tokens_from (mode : LexMode) : Nat → Lexer → Except SyntaxError (List Token)
  | 0, _ => .ok []
  | k + 1, l =>
    match lex_next l mode with
    | .error e => .error e
    | .ok (t, l2) =>
      match tokens_from mode k l2 with
      | .error e => .error e
      | .ok ts => .ok (t :: ts)


set_option maxRecDepth 100000

instance {ε α : Type} [DecidableEq ε] [DecidableEq α] : DecidableEq (Except ε α) :=
  fun x y =>
    match x, y with
    | .ok a, .ok b =>
      if h : a = b then .isTrue (by rw [h]) else .isFalse (fun he => h (Except.ok.inj he))
    | .error a, .error b =>
      if h : a = b then .isTrue (by rw [h]) else .isFalse (fun he => h (Except.error.inj he))
    | .ok _, .error _ => .isFalse (fun he => Except.noConfusion he)
    | .error _, .ok _ => .isFalse (fun he => Except.noConfusion he)

/-! ### Invariants of the lexer operations

`TokInv`/`LexInv` state the cursor invariant `0 ≤ next ≤ len(source)` (the
lower bound is free over `Nat`) together with preservation of the source
buffer, for both success and failure results (an error's recorded offset is
the value of `next` where the failure was detected); `PltEq` states that a
sub-lexer emits the `preceded_by_line_terminator` flag it was handed. -/

def TokInv (src : List Nat) (r : Except SyntaxError (Token × Lexer)) : Prop :=
  match r with
  | .ok (_, l2) => l2.source = src ∧ l2.next ≤ src.length
  | .error e => e.pos ≤ src.length

def PltEq (b : Bool) (r : Except SyntaxError (Token × Lexer)) : Prop :=
  match r with
  | .ok (t, _) => t.plt = b
  | .error _ => True

def LexInv (src : List Nat) (r : Except SyntaxError Lexer) : Prop :=
  match r with
  | .ok l2 => l2.source = src ∧ l2.next ≤ src.length
  | .error e => e.pos ≤ src.length

/-- The inter-token gap semantics of the dispatch loop: starting at offset `n`
with accumulated flag `b`, skip a whitespace run (recording into the flag
whether that run contains a line-feed byte), stop at the end of the source or
at the first non-comment match (returning the landing offset and the flag), and
skip `/*...*/` and `//...\n` comments without recording the line feeds inside
them.  This is the specification against which the
`preceded_by_line_terminator` flag of `lex_next` is proved: the flag records
line feeds in the skipped whitespace runs only, not those inside skipped
comments. -/
def gap_lf (src : List Nat) : Nat → Bool → Nat → Option (Nat × Bool)
  | 0, _, _ => none
  | fuel + 1, b, n =>
    let ws := countWhile WHITESPACE (src.drop n)
    let b2 := b || ((src.drop n).take ws).contains 10
    let n2 := n + ws
    if src.length ≤ n2 then some (n2, b2)
    else
      match bestMatch PATTERNS (src.drop n2) with
      | none => none
      | some (typ, _) =>
        if typ = TokenType.CommentMultiple then
          match findStarSlash (src.drop (n2 + 2)) with
          | some m => gap_lf src fuel b2 (n2 + 2 + m)
          | none => none
        else if typ = TokenType.CommentSingle then
          match firstIdx 10 (src.drop (n2 + 2)) with
          | some p => gap_lf src fuel b2 (n2 + 2 + (p + 1))
          | none => none
        else some (n2, b2)

/-! ### Basic facts about the scanning primitives -/

/-- The source buffer after an operation: the returned lexer's buffer on
success, the given buffer on failure (an error result carries no lexer). -/
def srcAfter (r : Except SyntaxError (Token × Lexer)) (s : List Nat) : List Nat :=
  match r with
  | .ok (_, lx) => lx.source
  | .error _ => s

theorem countWhile_le (f : Nat → Bool) : ∀ xs : List Nat, countWhile f xs ≤ xs.length
  | [] => Nat.le_refl 0
  | x :: xs => by
    simp only [countWhile, List.length_cons]
    split
    · exact Nat.succ_le_succ (countWhile_le f xs)
    · exact Nat.zero_le _

theorem countWhile_cons_true {f : Nat → Bool} {a : Nat} (xs : List Nat) (h : f a = true) :
    countWhile f (a :: xs) = countWhile f xs + 1 := by
  simp [countWhile, h]

theorem firstIdx_le (c : Nat) : ∀ xs p, firstIdx c xs = some p → p + 1 ≤ xs.length
  | [], p, h => by simp [firstIdx] at h
  | x :: xs, p, h => by
    simp only [firstIdx] at h
    split at h
    · cases h
      simp
    · cases hm : firstIdx c xs with
      | none => rw [hm] at h; cases h
      | some q =>
        rw [hm] at h
        cases h
        have := firstIdx_le c xs q hm
        simp only [List.length_cons]
        omega

theorem findStarSlash_le : ∀ xs m, findStarSlash xs = some m → m ≤ xs.length
  | [], m, h => by simp [findStarSlash] at h
  | x :: xs, m, h => by
    simp only [findStarSlash] at h
    split at h
    · cases h
      rename_i hc
      rcases xs with - | ⟨y, ys⟩
      · exact absurd hc.2 (by decide)
      · simp only [List.length_cons]
        omega
    · cases hm : findStarSlash xs with
      | none => rw [hm] at h; cases h
      | some q =>
        rw [hm] at h
        cases h
        have := findStarSlash_le xs q hm
        simp only [List.length_cons]
        omega

theorem isPre_length : ∀ p xs : List Nat, isPre p xs = true → p.length ≤ xs.length
  | [], _, _ => Nat.zero_le _
  | _ :: _, [], h => by simp [isPre] at h
  | a :: p, b :: xs, h => by
    simp only [isPre, Bool.and_eq_true, decide_eq_true_eq] at h
    simp only [List.length_cons]
    exact Nat.succ_le_succ (isPre_length p xs h.2)

theorem isPre_cons {a : Nat} {p xs : List Nat} (h : isPre (a :: p) xs = true) :
    ∃ ys, xs = a :: ys := by
  rcases xs with - | ⟨b, ys⟩
  · simp [isPre] at h
  · simp only [isPre, Bool.and_eq_true, decide_eq_true_eq] at h
    exact ⟨ys, by rw [h.1]⟩

theorem bestMatch_spec :
    ∀ (pats : List (TokenType × List Nat)) (xs : List Nat) (t : TokenType) (L : Nat),
      bestMatch pats xs = some (t, L) →
      ∃ p, (t, p) ∈ pats ∧ isPre p xs = true ∧ p.length = L
  | [], _, _, _, h => by simp [bestMatch] at h
  | (t1, p1) :: rest, xs, t, L, h => by
    simp only [bestMatch] at h
    split at h
    · cases h
      rename_i hcond
      simp only [Bool.and_eq_true] at hcond
      exact ⟨p1, List.mem_cons_self _ _, hcond.1, rfl⟩
    · obtain ⟨p, hp, hpre, hlen⟩ := bestMatch_spec rest xs t L h
      exact ⟨p, List.mem_cons_of_mem _ hp, hpre, hlen⟩

/-- Every pattern is nonempty. -/
theorem patterns_nonempty : ∀ tp ∈ PATTERNS, tp.2 ≠ [] := by decide

/-- Keyword patterns start with an identifier-continue byte. -/
theorem patterns_keyword_head :
    ∀ tp ∈ PATTERNS, isKeyword tp.1 = true → ID_CONTINUE (tp.2.headD 0) = true := by decide

/-- The only `CommentMultiple` pattern is the two-byte `/*`. -/
theorem patterns_comment_multiple :
    ∀ tp ∈ PATTERNS, tp.1 = .CommentMultiple → tp.2.length = 2 := by decide

/-- The only `CommentSingle` pattern is the two-byte `//`. -/
theorem patterns_comment_single :
    ∀ tp ∈ PATTERNS, tp.1 = .CommentSingle → tp.2.length = 2 := by decide

/-- The only `ChevronLeft` pattern is the single byte `<`. -/
theorem patterns_chevron_left :
    ∀ tp ∈ PATTERNS, tp.1 = .ChevronLeft → tp.2.length = 1 := by decide

/-- The radix-prefix patterns are all two bytes long. -/
theorem patterns_radix :
    ∀ tp ∈ PATTERNS,
      tp.1 = .LiteralNumberBin ∨ tp.1 = .LiteralNumberHex ∨ tp.1 = .LiteralNumberOct →
      tp.2.length = 2 := by decide

/-- A successful match has `1 ≤ L ≤ xs.length`. -/
theorem bestMatch_len_bounds {xs : List Nat} {t : TokenType} {L : Nat}
    (h : bestMatch PATTERNS xs = some (t, L)) : 1 ≤ L ∧ L ≤ xs.length := by
  obtain ⟨p, hp, hpre, hlen⟩ := bestMatch_spec PATTERNS xs t L h
  have h1 := patterns_nonempty _ hp
  have h2 := isPre_length p xs hpre
  rcases p with - | ⟨a, p⟩
  · exact absurd rfl h1
  · constructor
    · rw [← hlen]; simp
    · omega

/-- A matched `CommentMultiple` has length 2, and similarly for the other
fixed-length dispatch cases. -/
theorem bestMatch_fixed_len {xs : List Nat} {t : TokenType} {L k : Nat}
    (h : bestMatch PATTERNS xs = some (t, L))
    (hk : ∀ tp ∈ PATTERNS, tp.1 = t → tp.2.length = k) : L = k := by
  obtain ⟨p, hp, _, hlen⟩ := bestMatch_spec PATTERNS xs t L h
  rw [← hlen]
  exact hk _ hp rfl

theorem get?_lt {xs : List Nat} {n a : Nat} (h : xs.get? n = some a) : n < xs.length := by
  by_contra hn
  rw [List.get?_eq_none.mpr (Nat.le_of_not_lt hn)] at h
  cases h

theorem peek_or_eof_lt {l : Lexer} {k a : Nat} (h : l.peek_or_eof k = some a) :
    l.next + k < l.source.length := get?_lt h

theorem countWhile_drop_le (src : List Nat) (f : Nat → Bool) (n : Nat) :
    countWhile f (src.drop n) ≤ src.length - n := by
  have := countWhile_le f (src.drop n)
  rwa [List.length_drop] at this

theorem lex_identifier_inv (l : Lexer) (b : Bool) (h : l.next < l.source.length) :
    TokInv l.source (lex_identifier l b) ∧ PltEq b (lex_identifier l b) := by
  have hc := countWhile_drop_le l.source ID_CONTINUE (l.next + 1)
  simp [lex_identifier, Lexer.consume, Lexer.skip_expect, Lexer.while_chars,
    Lexer.checkpoint, TokInv, PltEq]
  all_goals omega

theorem consume_while_next (l : Lexer) (f : Nat → Bool) (h : l.next ≤ l.source.length) :
    (l.consume (l.while_chars f)).next ≤ l.source.length := by
  have := countWhile_drop_le l.source f l.next
  simp only [Lexer.consume, Lexer.while_chars]
  omega

theorem consume_not3_next (l : Lexer) (a b c : Nat) (h : l.next ≤ l.source.length) :
    (l.consume (l.while_not_3_chars a b c)).next ≤ l.source.length := by
  have := countWhile_drop_le l.source (fun x => !(x = a || x = b || x = c)) l.next
  simp only [Lexer.consume, Lexer.while_not_3_chars, countWhileNot3]
  omega

theorem consume_if_char_next (l : Lexer) (c : Nat) (h : l.next ≤ l.source.length) :
    (l.consume (l.if_char c)).next ≤ l.source.length := by
  simp only [Lexer.consume, Lexer.if_char]
  split
  · rename_i hp
    have := peek_or_eof_lt hp
    omega
  · omega

theorem lex_number_inv (l : Lexer) (b : Bool) (h : l.next ≤ l.source.length) :
    TokInv l.source (lex_number l b) ∧ PltEq b (lex_number l b) := by
  unfold lex_number
  dsimp only
  set l1 := l.consume (l.while_chars DIGIT) with hl1
  set l2 := l1.consume (l1.if_char 46) with hl2
  set l3 := l2.consume (l2.while_chars DIGIT) with hl3
  have n1 : l1.next ≤ l.source.length := consume_while_next l DIGIT h
  have n2 : l2.next ≤ l.source.length := consume_if_char_next l1 46 n1
  have n3 : l3.next ≤ l.source.length := consume_while_next l2 DIGIT n2
  cases hp : l3.peek_or_eof 0 with
  | none =>
    simp only [hp]
    exact ⟨⟨rfl, n3⟩, rfl⟩
  | some c =>
    simp only [hp]
    split
    · have hlt3 := peek_or_eof_lt hp
      cases hp2 : (l3.skip_expect 1).peek_or_eof 0 with
      | none =>
        simp only [hp2]
        refine ⟨?_, trivial⟩
        have hs3 : l3.source.length = l.source.length := rfl
        simp only [TokInv, Lexer.error, Lexer.skip_expect]
        omega
      | some d =>
        simp only [hp2]
        have hlt4 := peek_or_eof_lt hp2
        simp only [Lexer.skip_expect] at hlt4
        split
        · exact ⟨⟨rfl, consume_while_next _ DIGIT (by simp only [Lexer.skip_expect]; omega)⟩, rfl⟩
        · exact ⟨⟨rfl, consume_while_next _ DIGIT (by simp only [Lexer.skip_expect]; omega)⟩, rfl⟩
    · exact ⟨⟨rfl, n3⟩, rfl⟩

theorem lex_number_bin_inv (l : Lexer) (b : Bool) (h : l.next + 2 ≤ l.source.length) :
    TokInv l.source (lex_number_bin l b) ∧ PltEq b (lex_number_bin l b) := by
  have hc := countWhile_drop_le l.source DIGIT_BIN (l.next + 2)
  simp [lex_number_bin, Lexer.consume, Lexer.skip_expect, Lexer.while_chars,
    Lexer.checkpoint, TokInv, PltEq]
  all_goals omega

theorem lex_number_hex_inv (l : Lexer) (b : Bool) (h : l.next + 2 ≤ l.source.length) :
    TokInv l.source (lex_number_hex l b) ∧ PltEq b (lex_number_hex l b) := by
  have hc := countWhile_drop_le l.source DIGIT_HEX (l.next + 2)
  simp [lex_number_hex, Lexer.consume, Lexer.skip_expect, Lexer.while_chars,
    Lexer.checkpoint, TokInv, PltEq]
  all_goals omega

theorem lex_number_oct_inv (l : Lexer) (b : Bool) (h : l.next + 2 ≤ l.source.length) :
    TokInv l.source (lex_number_oct l b) ∧ PltEq b (lex_number_oct l b) := by
  have hc := countWhile_drop_le l.source DIGIT_OCT (l.next + 2)
  simp [lex_number_oct, Lexer.consume, Lexer.skip_expect, Lexer.while_chars,
    Lexer.checkpoint, TokInv, PltEq]
  all_goals omega

theorem lex_multiple_comment_inv (l : Lexer) (h : l.next + 2 ≤ l.source.length) :
    LexInv l.source (lex_multiple_comment l) := by
  unfold lex_multiple_comment
  dsimp only
  cases hf : findStarSlash ((l.skip_expect 2).source.drop (l.skip_expect 2).next) with
  | none =>
    simp only [hf]
    simp only [LexInv, Lexer.error, Lexer.skip_expect]
    omega
  | some m =>
    simp only [hf]
    have := findStarSlash_le _ m hf
    simp only [Lexer.skip_expect, List.length_drop] at this
    simp only [LexInv, Lexer.consume, Lexer.skip_expect]
    exact ⟨by trivial, by omega⟩

theorem lex_single_comment_inv (l : Lexer) (h : l.next + 2 ≤ l.source.length) :
    LexInv l.source (lex_single_comment l) := by
  unfold lex_single_comment Lexer.through_char
  dsimp only
  cases hf : firstIdx 10 ((l.skip_expect 2).source.drop (l.skip_expect 2).next) with
  | none =>
    simp only [hf]
    simp only [LexInv, Lexer.error, Lexer.skip_expect]
    omega
  | some p =>
    simp only [hf]
    have := firstIdx_le 10 _ p hf
    simp only [Lexer.skip_expect, List.length_drop] at this
    simp only [LexInv, Lexer.consume, Lexer.skip_expect]
    exact ⟨by trivial, by omega⟩

theorem lex_string_loop_inv (quote cp : Nat) (b : Bool) :
    ∀ (fuel : Nat) (l : Lexer), l.next ≤ l.source.length →
      TokInv l.source (lex_string_loop quote cp b fuel l) ∧
        PltEq b (lex_string_loop quote cp b fuel l)
  | 0, l, h => ⟨h, trivial⟩
  | fuel + 1, l, h => by
    unfold lex_string_loop
    dsimp only
    set l1 := l.consume (l.while_not_3_chars 92 10 quote) with hl1
    have hs1 : l1.source = l.source := by rw [hl1]; rfl
    have n1 : l1.next ≤ l.source.length := consume_not3_next l 92 10 quote h
    cases hp : l1.peek_or_eof 0 with
    | none => exact ⟨n1, trivial⟩
    | some c =>
      simp only [hp]
      have hlt := peek_or_eof_lt hp
      rw [hs1] at hlt
      split
      · by_cases hn2 : l1.source.length < l1.next + 2
        · simp only [Lexer.nBytes, Lexer.endPos, if_pos hn2]
          exact ⟨n1, trivial⟩
        · simp only [Lexer.nBytes, Lexer.endPos, if_neg hn2]
          rw [hs1] at hn2
          have := lex_string_loop_inv quote cp b fuel (l1.consume 2)
            (by simp only [Lexer.consume, hs1]; omega)
          rw [show (l1.consume 2).source = l.source from hs1] at this
          exact this
      · split
        · exact ⟨n1, trivial⟩
        · split
          · exact ⟨⟨by simp only [Lexer.skip_expect, hs1], by simp only [Lexer.skip_expect]; omega⟩, rfl⟩
          · exact ⟨n1, trivial⟩

theorem lex_string_inv (l : Lexer) (b : Bool) (h : l.next ≤ l.source.length) :
    TokInv l.source (lex_string l b) ∧ PltEq b (lex_string l b) := by
  unfold lex_string
  dsimp only
  cases hp : l.peek_or_eof 0 with
  | none => exact ⟨h, trivial⟩
  | some quote =>
    simp only [hp]
    have hlt := peek_or_eof_lt hp
    have := lex_string_loop_inv quote l.checkpoint b (l.remaining + 1)
      (l.skip_expect 1) (by simp only [Lexer.skip_expect]; omega)
    rw [show (l.skip_expect 1).source = l.source from rfl] at this
    exact this

theorem lex_regex_loop_inv :
    ∀ (fuel : Nat) (ic : Bool) (l : Lexer), l.next ≤ l.source.length →
      LexInv l.source (lex_regex_loop fuel ic l)
  | 0, _, l, h => h
  | fuel + 1, ic, l, h => by
    unfold lex_regex_loop
    dsimp only
    cases hp : l.peek_or_eof 0 with
    | none => exact h
    | some c =>
      simp only [hp]
      have hlt := peek_or_eof_lt hp
      split
      · cases hp2 : (l.skip_expect 1).peek_or_eof 1 with
        | none =>
          simp only [hp2]
          show (l.skip_expect 1).next ≤ l.source.length
          simp only [Lexer.skip_expect]
          omega
        | some d =>
          simp only [hp2]
          have hlt2 := peek_or_eof_lt hp2
          simp only [Lexer.skip_expect] at hlt2
          split
          · show (l.skip_expect 1).next ≤ l.source.length
            simp only [Lexer.skip_expect]
            omega
          · exact lex_regex_loop_inv fuel ic ((l.skip_expect 1).skip_expect 1)
              (by simp only [Lexer.skip_expect]; omega)
      · split
        · exact ⟨rfl, by simp only [Lexer.skip_expect]; omega⟩
        · split
          · exact lex_regex_loop_inv fuel true (l.skip_expect 1)
              (by simp only [Lexer.skip_expect]; omega)
          · split
            · exact lex_regex_loop_inv fuel false (l.skip_expect 1)
                (by simp only [Lexer.skip_expect]; omega)
            · split
              · exact h
              · exact lex_regex_loop_inv fuel ic (l.skip_expect 1)
                  (by simp only [Lexer.skip_expect]; omega)

theorem lex_regex_inv (l : Lexer) (b : Bool) (h : l.next ≤ l.source.length) :
    TokInv l.source (lex_regex l b) ∧ PltEq b (lex_regex l b) := by
  unfold lex_regex
  dsimp only
  by_cases hn : l.source.length < l.next + 1
  · simp only [Lexer.nBytes, Lexer.endPos, if_pos hn]
    exact ⟨h, trivial⟩
  · simp only [Lexer.nBytes, Lexer.endPos, if_neg hn]
    have hloop := lex_regex_loop_inv (l.remaining + 1) false (l.consume 1)
      (by simp only [Lexer.consume]; omega)
    cases hr : lex_regex_loop (l.remaining + 1) false (l.consume 1) with
    | error e =>
      rw [hr] at hloop
      exact ⟨hloop, trivial⟩
    | ok l2 =>
      rw [hr] at hloop
      obtain ⟨hs2, hn2⟩ := hloop
      have hb := consume_while_next l2 ID_CONTINUE (by rw [hs2]; exact hn2)
      rw [hs2] at hb
      exact ⟨⟨by simp only [Lexer.consume] at hs2 ⊢; exact hs2, hb⟩, rfl⟩

theorem lex_template_loop_inv (cp : Nat) (b : Bool) :
    ∀ (fuel : Nat) (l : Lexer), l.next ≤ l.source.length →
      TokInv l.source (lex_template_loop cp b fuel l) ∧
        PltEq b (lex_template_loop cp b fuel l)
  | 0, l, h => ⟨h, trivial⟩
  | fuel + 1, l, h => by
    unfold lex_template_loop
    dsimp only
    set l1 := l.consume (l.while_not_3_chars 92 96 36) with hl1
    have hs1 : l1.source = l.source := by rw [hl1]; rfl
    have n1 : l1.next ≤ l.source.length := consume_not3_next l 92 96 36 h
    cases hp : l1.peek_or_eof 0 with
    | none => exact ⟨n1, trivial⟩
    | some c =>
      simp only [hp]
      have hlt := peek_or_eof_lt hp
      rw [hs1] at hlt
      split
      · by_cases hn2 : l1.source.length < l1.next + 2
        · simp only [Lexer.nBytes, Lexer.endPos, if_pos hn2]
          exact ⟨n1, trivial⟩
        · simp only [Lexer.nBytes, Lexer.endPos, if_neg hn2]
          rw [hs1] at hn2
          have := lex_template_loop_inv cp b fuel (l1.consume 2)
            (by simp only [Lexer.consume, hs1]; omega)
          rw [show (l1.consume 2).source = l.source from hs1] at this
          exact this
      · split
        · exact ⟨⟨by simp only [Lexer.skip_expect, hs1],
            by simp only [Lexer.skip_expect]; omega⟩, rfl⟩
        · split
          · cases hp2 : l1.peek_or_eof 1 with
            | none => exact ⟨n1, trivial⟩
            | some d =>
              simp only [hp2]
              have hlt2 := peek_or_eof_lt hp2
              rw [hs1] at hlt2
              split
              · exact ⟨⟨by simp only [Lexer.skip_expect, hs1],
                  by simp only [Lexer.skip_expect]; omega⟩, rfl⟩
              · have := lex_template_loop_inv cp b fuel (l1.skip_expect 1)
                  (by simp only [Lexer.skip_expect, hs1]; omega)
                rw [show (l1.skip_expect 1).source = l.source from hs1] at this
                exact this
          · exact ⟨n1, trivial⟩

theorem lex_template_string_continue_inv (l : Lexer) (b : Bool)
    (h : l.next ≤ l.source.length) :
    TokInv l.source (lex_template_string_continue l b) ∧
      PltEq b (lex_template_string_continue l b) := by
  unfold lex_template_string_continue
  exact lex_template_loop_inv l.checkpoint b (l.remaining + 1) l h

theorem lex_template_inv (l : Lexer) (b : Bool) (h : l.next + 1 ≤ l.source.length) :
    TokInv l.source (lex_template l b) ∧ PltEq b (lex_template l b) := by
  unfold lex_template
  have := lex_template_string_continue_inv (l.skip_expect 1) b
    (by simp only [Lexer.skip_expect]; omega)
  rw [show (l.skip_expect 1).source = l.source from rfl] at this
  exact this

theorem lex_dispatch_inv (l : Lexer) (b : Bool) (mode : LexMode) (typ : TokenType) (len : Nat)
    (h : l.next ≤ l.source.length)
    (hm : bestMatch PATTERNS (l.source.drop l.next) = some (typ, len)) :
    TokInv l.source (lex_dispatch l b mode typ len) ∧
      PltEq b (lex_dispatch l b mode typ len) := by
  obtain ⟨hb1, hb2⟩ := bestMatch_len_bounds hm
  rw [List.length_drop] at hb2
  have hlt : l.next < l.source.length := by omega
  have hle : l.next + len ≤ l.source.length := by omega
  unfold lex_dispatch
  by_cases h1 : typ = .Identifier
  · rw [if_pos h1]
    exact lex_identifier_inv l b hlt
  rw [if_neg h1]
  by_cases h2 : typ = .LiteralNumber
  · rw [if_pos h2]
    exact lex_number_inv l b h
  rw [if_neg h2]
  by_cases h3 : typ = .LiteralNumberBin
  · rw [if_pos h3]
    have hl2 : len = 2 := bestMatch_fixed_len hm
      (fun tp htp he => patterns_radix tp htp (Or.inl (he.trans h3)))
    exact lex_number_bin_inv l b (by omega)
  rw [if_neg h3]
  by_cases h4 : typ = .LiteralNumberHex
  · rw [if_pos h4]
    have hl2 : len = 2 := bestMatch_fixed_len hm
      (fun tp htp he => patterns_radix tp htp (Or.inr (Or.inl (he.trans h4))))
    exact lex_number_hex_inv l b (by omega)
  rw [if_neg h4]
  by_cases h5 : typ = .LiteralNumberOct
  · rw [if_pos h5]
    have hl2 : len = 2 := bestMatch_fixed_len hm
      (fun tp htp he => patterns_radix tp htp (Or.inr (Or.inr (he.trans h5))))
    exact lex_number_oct_inv l b (by omega)
  rw [if_neg h5]
  by_cases h6 : typ = .LiteralString
  · rw [if_pos h6]
    exact lex_string_inv l b h
  rw [if_neg h6]
  by_cases h7 : typ = .LiteralTemplatePartString
  · rw [if_pos h7]
    exact lex_template_inv l b (by omega)
  rw [if_neg h7]
  by_cases h8 : typ = TokenType.Slash ∧ mode = LexMode.SlashIsRegex
  · rw [if_pos h8]
    exact lex_regex_inv l b h
  rw [if_neg h8]
  by_cases h9 : typ = TokenType.ChevronLeft ∧
      ID_CONTINUE_OR_PARENTHESIS_CLOSE_OR_BRACKET_CLOSE l.prev_char = true
  · rw [if_pos h9]
    exact ⟨⟨rfl, by simp only [Lexer.consume]; omega⟩, rfl⟩
  rw [if_neg h9]
  by_cases h10 : typ = TokenType.Question ∧ len ≠ 1
  · rw [if_pos h10]
    exact ⟨⟨rfl, by simp only [Lexer.consume]; omega⟩, rfl⟩
  rw [if_neg h10]
  by_cases h11 : isKeyword typ = true ∧
      (match l.peek_or_eof len with | some c => ID_CONTINUE c | none => false) = true
  · rw [if_pos h11]
    exact lex_identifier_inv l b hlt
  rw [if_neg h11]
  exact ⟨⟨rfl, by simp only [Lexer.consume]; omega⟩, rfl⟩

theorem lex_next_loop_inv (mode : LexMode) :
    ∀ (fuel : Nat) (b : Bool) (l : Lexer), l.next ≤ l.source.length →
      TokInv l.source (lex_next_loop mode fuel b l)
  | 0, _, l, h => h
  | fuel + 1, b, l, h => by
    unfold lex_next_loop
    dsimp only
    set l1 := l.consume (l.while_chars WHITESPACE) with hl1
    have hs1 : l1.source = l.source := by rw [hl1]; rfl
    have n1 : l1.next ≤ l.source.length := consume_while_next l WHITESPACE h
    by_cases he : l1.at_end = true
    · rw [if_pos he]
      exact ⟨hs1, n1⟩
    rw [if_neg he]
    cases hf : bestMatch PATTERNS (l1.source.drop l1.next) with
    | none =>
      simp only [Lexer.findMatch, hf]
      exact n1
    | some r =>
      obtain ⟨typ, len⟩ := r
      simp only [Lexer.findMatch, hf]
      have hbounds := bestMatch_len_bounds hf
      rw [List.length_drop] at hbounds
      by_cases hc1 : typ = TokenType.CommentMultiple
      · rw [if_pos hc1]
        have hlen2 : len = 2 := bestMatch_fixed_len hf
          (fun tp htp he2 => patterns_comment_multiple tp htp (he2.trans hc1))
        have hcm := lex_multiple_comment_inv l1 (by rw [hs1] at hbounds ⊢; omega)
        cases hmc : lex_multiple_comment l1 with
        | error e =>
          rw [hmc] at hcm
          rw [hs1] at hcm
          exact hcm
        | ok l2 =>
          rw [hmc] at hcm
          obtain ⟨hs2, hn2⟩ := hcm
          have := lex_next_loop_inv mode fuel (b || ((l.source.drop l.next).take
              (l.while_chars WHITESPACE)).contains 10) l2 (by rw [hs2]; exact hn2)
          rw [show l2.source = l.source from hs2.trans hs1] at this
          exact this
      rw [if_neg hc1]
      by_cases hc2 : typ = TokenType.CommentSingle
      · rw [if_pos hc2]
        have hlen2 : len = 2 := bestMatch_fixed_len hf
          (fun tp htp he2 => patterns_comment_single tp htp (he2.trans hc2))
        have hcm := lex_single_comment_inv l1 (by rw [hs1] at hbounds ⊢; omega)
        cases hmc : lex_single_comment l1 with
        | error e =>
          rw [hmc] at hcm
          rw [hs1] at hcm
          exact hcm
        | ok l2 =>
          rw [hmc] at hcm
          obtain ⟨hs2, hn2⟩ := hcm
          have := lex_next_loop_inv mode fuel (b || ((l.source.drop l.next).take
              (l.while_chars WHITESPACE)).contains 10) l2 (by rw [hs2]; exact hn2)
          rw [show l2.source = l.source from hs2.trans hs1] at this
          exact this
      rw [if_neg hc2]
      have := (lex_dispatch_inv l1 (b || ((l.source.drop l.next).take
          (l.while_chars WHITESPACE)).contains 10) mode typ len (by rw [hs1]; exact n1)
          hf).1
      rw [hs1] at this
      exact this

/-- Invariant of the public `lex_next`. -/
theorem lex_next_inv (l : Lexer) (mode : LexMode) (h : l.next ≤ l.source.length) :
    TokInv l.source (lex_next l mode) :=
  lex_next_loop_inv mode (l.remaining + 1) false l h

theorem findStarSlash_ge2 : ∀ xs m, findStarSlash xs = some m → 2 ≤ m
  | [], m, h => by simp [findStarSlash] at h
  | x :: xs, m, h => by
    simp only [findStarSlash] at h
    split at h
    · cases h
      exact Nat.le_refl 2
    · cases hm : findStarSlash xs with
      | none => rw [hm] at h; cases h
      | some q =>
        rw [hm] at h
        cases h
        have := findStarSlash_ge2 xs q hm
        show 2 ≤ q + 1
        omega

theorem lex_next_loop_plt (mode : LexMode) :
    ∀ (fuel : Nat) (b : Bool) (l : Lexer) (tok : Token) (l2 : Lexer),
      l.next ≤ l.source.length →
      lex_next_loop mode fuel b l = .ok (tok, l2) →
      (gap_lf l.source fuel b l.next).map Prod.snd = some tok.plt
  | 0, b, l, tok, l2, _, heq => by cases heq
  | fuel + 1, b, l, tok, l2, h, heq => by
    unfold lex_next_loop at heq
    unfold gap_lf
    simp only [Lexer.while_chars, Lexer.consume, Lexer.at_end, Lexer.endPos,
      Lexer.findMatch] at heq
    dsimp only at heq ⊢
    have hcw := countWhile_drop_le l.source WHITESPACE l.next
    by_cases hend : l.source.length ≤ l.next + countWhile WHITESPACE (l.source.drop l.next)
    · rw [if_pos (by simpa using hend)] at heq
      rw [if_pos hend]
      cases heq
      rfl
    · rw [if_neg (by simpa using hend)] at heq
      rw [if_neg hend]
      cases hf : bestMatch PATTERNS
          (l.source.drop (l.next + countWhile WHITESPACE (l.source.drop l.next))) with
      | none =>
        rw [hf] at heq
        cases heq
      | some r =>
        obtain ⟨typ, len⟩ := r
        rw [hf] at heq
        dsimp only at heq ⊢
        by_cases hc1 : typ = TokenType.CommentMultiple
        · rw [if_pos hc1] at heq ⊢
          simp only [lex_multiple_comment, Lexer.skip_expect, Lexer.consume] at heq
          cases hss : findStarSlash
              (l.source.drop (l.next + countWhile WHITESPACE (l.source.drop l.next) + 2)) with
          | none =>
            rw [hss] at heq
            cases heq
          | some m =>
            rw [hss] at heq
            dsimp only at heq
            have hm2 := findStarSlash_ge2 _ m hss
            have hml := findStarSlash_le _ m hss
            rw [List.length_drop] at hml
            exact lex_next_loop_plt mode fuel _ _ tok l2
              (by show l.next + countWhile WHITESPACE (l.source.drop l.next) + 2 + m ≤
                    l.source.length
                  omega) heq
        rw [if_neg hc1] at heq ⊢
        by_cases hc2 : typ = TokenType.CommentSingle
        · rw [if_pos hc2] at heq ⊢
          simp only [lex_single_comment, Lexer.through_char, Lexer.skip_expect,
            Lexer.consume] at heq
          cases hss : firstIdx 10
              (l.source.drop (l.next + countWhile WHITESPACE (l.source.drop l.next) + 2)) with
          | none =>
            rw [hss] at heq
            cases heq
          | some p =>
            rw [hss] at heq
            dsimp only at heq
            have hml := firstIdx_le 10 _ p hss
            rw [List.length_drop] at hml
            exact lex_next_loop_plt mode fuel _ _ tok l2
              (by show l.next + countWhile WHITESPACE (l.source.drop l.next) + 2 + (p + 1) ≤
                    l.source.length
                  omega) heq
        rw [if_neg hc2] at heq ⊢
        have hplt := (lex_dispatch_inv
          ⟨l.source, l.next + countWhile WHITESPACE (l.source.drop l.next)⟩
          (b || ((l.source.drop l.next).take
            (countWhile WHITESPACE (l.source.drop l.next))).contains 10)
          mode typ len
          (by show l.next + countWhile WHITESPACE (l.source.drop l.next) ≤ l.source.length
              omega) hf).2
        rw [heq] at hplt
        simp only [PltEq] at hplt
        simp [hplt]

/-! ### The claims -/

/-- C7: in `SlashIsRegex` mode a matched `/` starts a regex literal in which a
`/` inside `[`..`]` does not terminate the literal and trailing
identifier-continue bytes are consumed as flags: `/ab[/]c/gi` lexes as the
single `LiteralRegex` token spanning the whole input, followed by `EOF`; in
`Standard` mode the same input first yields the one-byte `Slash` token. -/
theorem c7_regex_charset_and_flags :
    tokens_from .SlashIsRegex 2 ⟨strBytes "/ab[/]c/gi", 0⟩ =
      .ok [⟨0, 10, .LiteralRegex, false⟩, ⟨10, 10, .EOF, false⟩] ∧
    lex_next ⟨strBytes "/ab[/]c/gi", 0⟩ .Standard =
      .ok (⟨0, 1, .Slash, false⟩, ⟨strBytes "/ab[/]c/gi", 1⟩) := by
  constructor
  · decide
  · decide

/-- C1 (counterexample): the claim "`preceded_by_line_terminator` is true iff
a line feed appears among the whitespace AND/OR COMMENT bytes skipped, and in
particular a line feed inside a skipped comment makes the flag true" is false:
on `//x\nb` the skipped bytes `//x\n` (offsets 0..3, with a line feed at
offset 3) are all comment bytes — the terminating line feed is consumed by
`lex_single_comment`, not by the whitespace skip — and the emitted token `b`
carries `preceded_by_line_terminator = false`. -/
theorem c1_counterexample :
    lex_next ⟨strBytes "//x\nb", 0⟩ .Standard =
      .ok (⟨4, 5, .Identifier, false⟩, ⟨strBytes "//x\nb", 5⟩) ∧
    (strBytes "//x\nb").get? 3 = some 10 := by
  constructor
  · decide
  · decide

/-- C1 (amended): the `preceded_by_line_terminator` flag of the token returned
by the dispatch loop is exactly the flag computed by `gap_lf`: true iff at
least one line-feed byte appears among the whitespace runs skipped since the
previous token (or since the start), where line feeds inside skipped comments
(including the line feed that terminates a single-line comment) are not
recorded, and the flag persists across interleaved whitespace and comments
until a non-trivial token is emitted. -/
theorem c1_plt_records_ws_line_feeds_only (fuel : Nat) (b : Bool) (l : Lexer)
    (mode : LexMode) (tok : Token) (l2 : Lexer)
    (h : l.next ≤ l.source.length)
    (heq : lex_next_loop mode fuel b l = .ok (tok, l2)) :
    (gap_lf l.source fuel b l.next).map Prod.snd = some tok.plt :=
  lex_next_loop_plt mode fuel b l tok l2 h heq

/-- C1 (witness): on `a\nb` starting at offset 1, the emitted token is `b`
with the flag set (the skipped byte at offset 1 is a whitespace line feed),
matching `gap_lf`. -/
theorem c1_witness :
    lex_next_loop .Standard 3 false ⟨strBytes "a\nb", 1⟩ =
      .ok (⟨2, 3, .Identifier, true⟩, ⟨strBytes "a\nb", 3⟩) ∧
    (gap_lf (strBytes "a\nb") 3 false 1).map Prod.snd = some true :=
  ⟨by decide,
   c1_plt_records_ws_line_feeds_only 3 false ⟨strBytes "a\nb", 1⟩ .Standard
     ⟨2, 3, .Identifier, true⟩ ⟨strBytes "a\nb", 3⟩ (by decide) (by decide)⟩

/-- C5 (counterexample): the claim says an unterminated `/*` comment fails
with `UnexpectedEnd`; in fact `lex_multiple_comment` searches for `*/` with the
`COMMENT_END` automaton via `Lexer::aho_corasick`, whose failure is
`ExpectedNotFound` — so `/*ab` fails with `ExpectedNotFound` (at offset 2),
which is a different error kind than the claimed `UnexpectedEnd`. -/
theorem c5_counterexample :
    lex_next ⟨strBytes "/*ab", 0⟩ .Standard = .error ⟨.ExpectedNotFound, 2⟩ ∧
    SyntaxErrorType.ExpectedNotFound ≠ SyntaxErrorType.UnexpectedEnd := by
  constructor
  · decide
  · decide

theorem lex_next_step (src : List Nat) (n : Nat) (mode : LexMode) (typ : TokenType) (L : Nat)
    (hws : countWhile WHITESPACE (src.drop n) = 0)
    (hm : bestMatch PATTERNS (src.drop n) = some (typ, L))
    (hc1 : typ ≠ TokenType.CommentMultiple) (hc2 : typ ≠ TokenType.CommentSingle) :
    lex_next ⟨src, n⟩ mode = lex_dispatch ⟨src, n⟩ false mode typ L := by
  have hb := bestMatch_len_bounds hm
  rw [List.length_drop] at hb
  have hn : n < src.length := by omega
  unfold lex_next lex_next_loop
  dsimp only
  simp only [Lexer.while_chars, Lexer.consume, Lexer.findMatch]
  rw [hws]
  simp only [Nat.add_zero, List.take_zero]
  rw [if_neg (by simp only [Lexer.at_end, Lexer.endPos, decide_eq_true_eq]; omega)]
  rw [hm]
  dsimp only
  rw [if_neg hc1, if_neg hc2]
  norm_num

/-- C5 (amended): when `lex_next` matches a multi-line comment opener `/*`
with no subsequent `*/` in the remaining source it fails with
`ExpectedNotFound` (the failure of the `COMMENT_END` matcher), and when it
matches a single-line comment opener `//` with no subsequent line feed it
fails with `UnexpectedEnd` (the failure of `through_char`); in both cases the
error offset is just past the opener. -/
theorem c5_unterminated_comment_errors (src : List Nat) (n : Nat) (mode : LexMode)
    (typ : TokenType) (L : Nat)
    (hws : countWhile WHITESPACE (src.drop n) = 0)
    (hm : bestMatch PATTERNS (src.drop n) = some (typ, L))
    (hor : typ = TokenType.CommentMultiple ∨ typ = TokenType.CommentSingle)
    (hm1 : typ = TokenType.CommentMultiple → findStarSlash (src.drop (n + 2)) = none)
    (hm2 : typ = TokenType.CommentSingle → firstIdx 10 (src.drop (n + 2)) = none) :
    lex_next ⟨src, n⟩ mode =
      .error ⟨if typ = TokenType.CommentMultiple then .ExpectedNotFound else .UnexpectedEnd,
              n + 2⟩ := by
  have hb := bestMatch_len_bounds hm
  rw [List.length_drop] at hb
  have hn : n < src.length := by omega
  unfold lex_next lex_next_loop
  dsimp only
  simp only [Lexer.while_chars, Lexer.consume, Lexer.findMatch]
  rw [hws]
  simp only [Nat.add_zero, List.take_zero]
  rw [if_neg (by simp only [Lexer.at_end, Lexer.endPos, decide_eq_true_eq]; omega)]
  rw [hm]
  dsimp only
  cases hor with
  | inl hty =>
    rw [if_pos hty, if_pos hty]
    simp only [lex_multiple_comment, Lexer.skip_expect]
    rw [hm1 hty]
    rfl
  | inr hty =>
    have hne : typ ≠ TokenType.CommentMultiple := by rw [hty]; decide
    rw [if_neg hne, if_pos hty, if_neg hne]
    simp only [lex_single_comment, Lexer.through_char, Lexer.skip_expect]
    rw [hm2 hty]
    rfl

/-- C5 (witness): on the source `/*` the matcher yields `CommentMultiple`,
there is no `*/` after the opener, and `lex_next` fails with
`ExpectedNotFound` at offset 2. -/
theorem c5_witness :
    bestMatch PATTERNS ((strBytes "/*").drop 0) = some (.CommentMultiple, 2) ∧
    lex_next ⟨strBytes "/*", 0⟩ .Standard = .error ⟨.ExpectedNotFound, 2⟩ :=
  ⟨by decide,
   c5_unterminated_comment_errors (strBytes "/*") 0 .Standard .CommentMultiple 2
     (by decide) (by decide) (Or.inl rfl) (fun _ => by decide) (by decide)⟩

/-- C6: whenever the string scanning loop (entered after the opening quote)
reaches a position whose next stop byte — the first of backslash, line feed,
or the quote — is a line feed, it fails with `LineTerminatorInString` carrying
the offset of that line-feed byte; in particular the input `"abc\n"` fails
with `LineTerminatorInString` at offset 4, the offset of the line feed. -/
theorem c6_line_terminator_in_string (src : List Nat) (n quote cp fuel : Nat) (b : Bool)
    (hk : src.get? (n + countWhileNot3 92 10 quote (src.drop n)) = some 10) :
    lex_string_loop quote cp b (fuel + 1) ⟨src, n⟩ =
      .error ⟨.LineTerminatorInString, n + countWhileNot3 92 10 quote (src.drop n)⟩ ∧
    lex_next ⟨strBytes "\"abc\n\"", 0⟩ .Standard =
      .error ⟨.LineTerminatorInString, 4⟩ := by
  refine ⟨?_, by decide⟩
  unfold lex_string_loop
  dsimp only
  simp only [Lexer.while_not_3_chars, Lexer.consume, Lexer.peek_or_eof, Nat.add_zero]
  rw [hk]
  norm_num [Lexer.error]

/-- C6 (witness): instantiated on the one-byte source consisting of a single
line feed with quote byte `"`: the stop position is 0 and the loop fails with
`LineTerminatorInString` at offset 0. -/
theorem c6_witness :
    lex_string_loop 34 0 false 1 ⟨[10], 0⟩ = .error ⟨.LineTerminatorInString, 0⟩ ∧
    lex_next ⟨strBytes "\"abc\n\"", 0⟩ .Standard =
      .error ⟨.LineTerminatorInString, 4⟩ :=
  c6_line_terminator_in_string [10] 0 34 0 0 false (by decide)

/-- C10: when the decimal-number sub-lexer is entered and, after consuming the
integer digits, the optional point, and the fractional digits, the next byte
is an `e` or `E` that is the final byte of the source, `lex_next` returns an
`UnexpectedEnd` error (at offset `len(source)`) instead of emitting a
`LiteralNumber` token: after consuming the exponent marker the sub-lexer
peeks one more byte to inspect for a sign, and that peek fails at EOF. -/
theorem c10_exponent_at_eof (src : List Nat) (n n1 n2 n3 : Nat) (mode : LexMode)
    (L e : Nat)
    (hws : countWhile WHITESPACE (src.drop n) = 0)
    (hm : bestMatch PATTERNS (src.drop n) = some (.LiteralNumber, L))
    (h1 : n1 = n + countWhile DIGIT (src.drop n))
    (h2 : n2 = n1 + (if src.get? n1 = some 46 then 1 else 0))
    (h3 : n3 = n2 + countWhile DIGIT (src.drop n2))
    (he : src.get? n3 = some e) (hee : e = 101 ∨ e = 69)
    (hlast : n3 + 1 = src.length) :
    lex_next ⟨src, n⟩ mode = .error ⟨.UnexpectedEnd, src.length⟩ := by
  rw [lex_next_step src n mode .LiteralNumber L hws hm (by decide) (by decide)]
  unfold lex_dispatch
  rw [if_neg (by decide : ¬(TokenType.LiteralNumber = TokenType.Identifier)),
    if_pos rfl]
  unfold lex_number
  dsimp only
  simp only [Lexer.while_chars, Lexer.consume, Lexer.if_char, Lexer.peek_or_eof,
    Lexer.skip_expect, Lexer.checkpoint, Nat.add_zero]
  simp only [← h1]
  simp only [← h2]
  simp only [← h3]
  rw [he]
  dsimp only
  have hcond : (e = 101 || e = 69) = true := by
    cases hee with
    | inl h => rw [h]; decide
    | inr h => rw [h]; decide
  rw [if_pos hcond]
  have hnone : src.get? (n3 + 1) = none := List.get?_eq_none.mpr (by omega)
  rw [hnone]
  simp only [Lexer.error, hlast]

/-- C10 (witness): on the whole input `1e` the matcher yields `LiteralNumber`,
the `e` is the final byte, and `lex_next` returns `UnexpectedEnd` at offset
2 (= the length of the source). -/
theorem c10_witness :
    bestMatch PATTERNS ((strBytes "1e").drop 0) = some (.LiteralNumber, 1) ∧
    lex_next ⟨strBytes "1e", 0⟩ .Standard = .error ⟨.UnexpectedEnd, 2⟩ :=
  ⟨by decide, by
    exact c10_exponent_at_eof (strBytes "1e") 0 1 1 1 .Standard 1 101
      (by decide) (by decide) (by decide) (by decide) (by decide) (by decide)
      (Or.inl rfl) (by decide)⟩

/-- C9: the lexer's only mutable state is the cursor: `lex_next` (in either
mode) and `lex_template_string_continue` preserve the source buffer and the
invariant `0 ≤ next ≤ len(source)` — on success the returned lexer satisfies
it, and on failure the error's recorded offset (the value of `next` where the
failure was detected) satisfies it; `apply_checkpoint` with a checkpoint taken
from the same lexer (hence a former cursor value within bounds) changes only
the offset and keeps it within bounds. -/
theorem c9_cursor_invariant (l lt lc : Lexer) (mode : LexMode) (b : Bool) (cp : Nat)
    (h : l.next ≤ l.source.length) (ht : lt.next ≤ lt.source.length)
    (hc : cp ≤ lc.source.length) :
    TokInv l.source (lex_next l mode) ∧
    TokInv lt.source (lex_template_string_continue lt b) ∧
    (lc.apply_checkpoint cp).source = lc.source ∧
    (lc.apply_checkpoint cp).next = cp ∧
    (lc.apply_checkpoint cp).next ≤ lc.source.length ∧
    lc.checkpoint = lc.next :=
  ⟨lex_next_inv l mode h, (lex_template_string_continue_inv lt b ht).1, rfl, rfl, hc, rfl⟩

/-- C9 (witness): the invariant instantiated on concrete lexers. -/
theorem c9_witness :
    TokInv (strBytes "a b") (lex_next ⟨strBytes "a b", 0⟩ .Standard) ∧
    TokInv (strBytes "x`y") (lex_template_string_continue ⟨strBytes "x`y", 0⟩ false) ∧
    (Lexer.apply_checkpoint ⟨strBytes "ab", 1⟩ 0).source = strBytes "ab" ∧
    (Lexer.apply_checkpoint ⟨strBytes "ab", 1⟩ 0).next = 0 ∧
    (Lexer.apply_checkpoint ⟨strBytes "ab", 1⟩ 0).next ≤ (strBytes "ab").length ∧
    Lexer.checkpoint ⟨strBytes "ab", 1⟩ = 1 :=
  c9_cursor_invariant ⟨strBytes "a b", 0⟩ ⟨strBytes "x`y", 0⟩ ⟨strBytes "ab", 1⟩
    .Standard false 0 (by decide) (by decide) (by decide)

/-- C4: checkpoint round trip: a checkpoint is the cursor value and applying
it to the lexer after any operations (which preserve the source buffer, as
the last two conjuncts state for `lex_next` and the template continuation)
restores exactly the original state, so a subsequent `lex_next` returns
exactly what it would have returned from the checkpointed state; checkpoint
creation reads only the cursor and restoration changes nothing but the
cursor. -/
theorem c4_checkpoint_roundtrip (l l2 l3 : Lexer) (mode : LexMode) (fuel : Nat) (b : Bool)
    (hsrc : l2.source = l.source) (h3 : l3.next ≤ l3.source.length) :
    l2.apply_checkpoint l.checkpoint = l ∧
    lex_next (l2.apply_checkpoint l.checkpoint) mode = lex_next l mode ∧
    l.checkpoint = l.next ∧
    (l3.apply_checkpoint l.checkpoint).source = l3.source ∧
    srcAfter (lex_next_loop mode fuel b l3) l3.source = l3.source ∧
    srcAfter (lex_template_string_continue l3 b) l3.source = l3.source := by
  have h1 : l2.apply_checkpoint l.checkpoint = l := by
    cases l with
    | mk s n =>
      cases l2 with
      | mk s2 n2 =>
        simp only [Lexer.apply_checkpoint, Lexer.checkpoint, Lexer.mk.injEq]
        exact ⟨hsrc, trivial⟩
  refine ⟨h1, by rw [h1], rfl, rfl, ?_, ?_⟩
  · have hinv := lex_next_loop_inv mode fuel b l3 h3
    cases hr : lex_next_loop mode fuel b l3 with
    | ok p =>
      obtain ⟨t, lx⟩ := p
      rw [hr] at hinv
      simpa [srcAfter] using hinv.1
    | error e => simp [srcAfter]
  · have hinv := (lex_template_string_continue_inv l3 b h3).1
    cases hr : lex_template_string_continue l3 b with
    | ok p =>
      obtain ⟨t, lx⟩ := p
      rw [hr] at hinv
      simpa [srcAfter] using hinv.1
    | error e => simp [srcAfter]

/-- C4 (witness): instantiated on concrete lexers over the source `ab`. -/
theorem c4_witness :
    Lexer.apply_checkpoint ⟨strBytes "ab", 2⟩ (Lexer.checkpoint ⟨strBytes "ab", 0⟩) =
      ⟨strBytes "ab", 0⟩ ∧
    lex_next (Lexer.apply_checkpoint ⟨strBytes "ab", 2⟩
        (Lexer.checkpoint ⟨strBytes "ab", 0⟩)) .Standard =
      lex_next ⟨strBytes "ab", 0⟩ .Standard ∧
    Lexer.checkpoint ⟨strBytes "ab", 0⟩ = 0 ∧
    (Lexer.apply_checkpoint ⟨strBytes "ab", 1⟩
        (Lexer.checkpoint ⟨strBytes "ab", 0⟩)).source = strBytes "ab" ∧
    srcAfter (lex_next_loop .Standard 3 false ⟨strBytes "ab", 1⟩) (strBytes "ab") =
      strBytes "ab" ∧
    srcAfter (lex_template_string_continue ⟨strBytes "ab", 1⟩ false) (strBytes "ab") =
      strBytes "ab" :=
  c4_checkpoint_roundtrip ⟨strBytes "ab", 0⟩ ⟨strBytes "ab", 2⟩ ⟨strBytes "ab", 1⟩
    .Standard 3 false (by decide) (by decide)

/-- C3: whenever the matcher yields token type `Question` with a match length
other than 1 (i.e. one of the three-byte `?.digit` disambiguation patterns
matched), `lex_next` truncates the match and emits a `Question` token spanning
only the `?` byte, advancing the cursor by one; consequently `a?.3 : b` lexes
as `a`, `?`, `.3` (a `LiteralNumber`), `:`, `b`, `EOF`. -/
theorem c3_question_digit_truncation (src : List Nat) (n : Nat) (mode : LexMode) (L : Nat)
    (hws : countWhile WHITESPACE (src.drop n) = 0)
    (hm : bestMatch PATTERNS (src.drop n) = some (.Question, L))
    (hL : L ≠ 1) :
    lex_next ⟨src, n⟩ mode = .ok (⟨n, n + 1, .Question, false⟩, ⟨src, n + 1⟩) ∧
    tokens_from .Standard 6 ⟨strBytes "a?.3 : b", 0⟩ =
      .ok [⟨0, 1, .Identifier, false⟩, ⟨1, 2, .Question, false⟩,
           ⟨2, 4, .LiteralNumber, false⟩, ⟨5, 6, .Colon, false⟩,
           ⟨7, 8, .Identifier, false⟩, ⟨8, 8, .EOF, false⟩] := by
  refine ⟨?_, by decide⟩
  rw [lex_next_step src n mode .Question L hws hm (by decide) (by decide)]
  unfold lex_dispatch
  rw [if_neg (by decide : ¬(TokenType.Question = TokenType.Identifier)),
    if_neg (by decide : ¬(TokenType.Question = TokenType.LiteralNumber)),
    if_neg (by decide : ¬(TokenType.Question = TokenType.LiteralNumberBin)),
    if_neg (by decide : ¬(TokenType.Question = TokenType.LiteralNumberHex)),
    if_neg (by decide : ¬(TokenType.Question = TokenType.LiteralNumberOct)),
    if_neg (by decide : ¬(TokenType.Question = TokenType.LiteralString)),
    if_neg (by decide : ¬(TokenType.Question = TokenType.LiteralTemplatePartString)),
    if_neg (fun h => absurd h.1 (by decide)),
    if_neg (fun h => absurd h.1 (by decide)),
    if_pos ⟨rfl, hL⟩]
  rfl

/-- C3 (witness): on `a?.3 : b` at offset 1 the matcher matches the three-byte
pattern `?.3` with type `Question`, and the emitted token spans only the `?`. -/
theorem c3_witness :
    bestMatch PATTERNS ((strBytes "a?.3 : b").drop 1) = some (.Question, 3) ∧
    lex_next ⟨strBytes "a?.3 : b", 1⟩ .Standard =
      .ok (⟨1, 2, .Question, false⟩, ⟨strBytes "a?.3 : b", 2⟩) :=
  ⟨by decide,
   (c3_question_digit_truncation (strBytes "a?.3 : b") 1 .Standard 3
     (by decide) (by decide) (by decide)).1⟩

/-- C8: when the matcher yields `ChevronLeft` (the one-byte `<` pattern),
`lex_next` emits `ChevronLeftAsTypeArgumentsList` exactly when the byte before
the `<` satisfies ID_CONTINUE_OR_PARENTHESIS_CLOSE_OR_BRACKET_CLOSE, and
`ChevronLeft` otherwise; at offset 0 `prev_char` is the sentinel 0xFF, which
satisfies no filter, so a leading `<` stays `ChevronLeft`. -/
theorem c8_chevron_left_reclassification (src src2 : List Nat) (n : Nat) (mode : LexMode)
    (L : Nat)
    (hws : countWhile WHITESPACE (src.drop n) = 0)
    (hm : bestMatch PATTERNS (src.drop n) = some (.ChevronLeft, L)) :
    lex_next ⟨src, n⟩ mode =
      .ok (⟨n, n + 1,
            if ID_CONTINUE_OR_PARENTHESIS_CLOSE_OR_BRACKET_CLOSE
                (Lexer.prev_char ⟨src, n⟩) = true
            then .ChevronLeftAsTypeArgumentsList else .ChevronLeft, false⟩,
           ⟨src, n + 1⟩) ∧
    Lexer.prev_char ⟨src2, 0⟩ = 255 ∧
    ID_CONTINUE_OR_PARENTHESIS_CLOSE_OR_BRACKET_CLOSE 255 = false := by
  refine ⟨?_, rfl, by decide⟩
  have hL1 : L = 1 := bestMatch_fixed_len hm (fun tp htp he => patterns_chevron_left tp htp he)
  subst hL1
  rw [lex_next_step src n mode .ChevronLeft 1 hws hm (by decide) (by decide)]
  unfold lex_dispatch
  rw [if_neg (by decide : ¬(TokenType.ChevronLeft = TokenType.Identifier)),
    if_neg (by decide : ¬(TokenType.ChevronLeft = TokenType.LiteralNumber)),
    if_neg (by decide : ¬(TokenType.ChevronLeft = TokenType.LiteralNumberBin)),
    if_neg (by decide : ¬(TokenType.ChevronLeft = TokenType.LiteralNumberHex)),
    if_neg (by decide : ¬(TokenType.ChevronLeft = TokenType.LiteralNumberOct)),
    if_neg (by decide : ¬(TokenType.ChevronLeft = TokenType.LiteralString)),
    if_neg (by decide : ¬(TokenType.ChevronLeft = TokenType.LiteralTemplatePartString)),
    if_neg (fun h => absurd h.1 (by decide))]
  by_cases hf : ID_CONTINUE_OR_PARENTHESIS_CLOSE_OR_BRACKET_CLOSE
      (Lexer.prev_char ⟨src, n⟩) = true
  · rw [if_pos ⟨rfl, hf⟩, if_pos hf]
    rfl
  · rw [if_neg (fun h => hf h.2), if_neg hf,
      if_neg (fun h => absurd h.1 (by decide)),
      if_neg (fun h => absurd h.1 (by decide))]
    rfl

/-- C8 (witness): on `a<` at offset 1 the previous byte `a` satisfies the
filter, so the token is `ChevronLeftAsTypeArgumentsList`; and on any source at
offset 0 `prev_char` is 0xFF. -/
theorem c8_witness :
    lex_next ⟨strBytes "a<", 1⟩ .Standard =
      .ok (⟨1, 2,
            if ID_CONTINUE_OR_PARENTHESIS_CLOSE_OR_BRACKET_CLOSE
                (Lexer.prev_char ⟨strBytes "a<", 1⟩) = true
            then .ChevronLeftAsTypeArgumentsList else .ChevronLeft, false⟩,
           ⟨strBytes "a<", 2⟩) ∧
    Lexer.prev_char ⟨strBytes "<x", 0⟩ = 255 ∧
    ID_CONTINUE_OR_PARENTHESIS_CLOSE_OR_BRACKET_CLOSE 255 = false :=
  c8_chevron_left_reclassification (strBytes "a<") (strBytes "<x") 1 .Standard 1
    (by decide) (by decide)

/-- C2: when the matcher matches a keyword pattern at the cursor and the byte
immediately after the matched span satisfies ID_CONTINUE, `lex_next` reroutes
to the identifier sub-lexer and emits an `Identifier` token whose span is the
maximal run of ID_CONTINUE bytes starting at the keyword's first byte — not a
keyword token. -/
theorem c2_keyword_prefix_is_identifier (src : List Nat) (n : Nat) (mode : LexMode)
    (typ : TokenType) (L c : Nat)
    (hws : countWhile WHITESPACE (src.drop n) = 0)
    (hm : bestMatch PATTERNS (src.drop n) = some (typ, L))
    (hkw : isKeyword typ = true)
    (hc : src.get? (n + L) = some c)
    (hid : ID_CONTINUE c = true) :
    lex_next ⟨src, n⟩ mode =
      .ok (⟨n, n + countWhile ID_CONTINUE (src.drop n), .Identifier, false⟩,
           ⟨src, n + countWhile ID_CONTINUE (src.drop n)⟩) := by
  obtain ⟨p, hpmem, hpre, hplen⟩ := bestMatch_spec PATTERNS (src.drop n) typ L hm
  have hhead := patterns_keyword_head (typ, p) hpmem hkw
  have hpne := patterns_nonempty (typ, p) hpmem
  obtain ⟨a, p', rfl⟩ : ∃ a p', p = a :: p' := by
    cases p with
    | nil => exact absurd rfl hpne
    | cons a p' => exact ⟨a, p', rfl⟩
  obtain ⟨ys, hys⟩ := isPre_cons hpre
  have hheada : ID_CONTINUE a = true := by simpa using hhead
  rw [lex_next_step src n mode typ L hws hm
    (by rintro rfl; exact absurd hkw (by decide))
    (by rintro rfl; exact absurd hkw (by decide))]
  unfold lex_dispatch
  rw [if_neg (by rintro rfl; exact absurd hkw (by decide)),
    if_neg (by rintro rfl; exact absurd hkw (by decide)),
    if_neg (by rintro rfl; exact absurd hkw (by decide)),
    if_neg (by rintro rfl; exact absurd hkw (by decide)),
    if_neg (by rintro rfl; exact absurd hkw (by decide)),
    if_neg (by rintro rfl; exact absurd hkw (by decide)),
    if_neg (by rintro rfl; exact absurd hkw (by decide)),
    if_neg (by rintro ⟨rfl, -⟩; exact absurd hkw (by decide)),
    if_neg (by rintro ⟨rfl, -⟩; exact absurd hkw (by decide)),
    if_neg (by rintro ⟨rfl, -⟩; exact absurd hkw (by decide)),
    if_pos ⟨hkw, by
      show (match Lexer.peek_or_eof ⟨src, n⟩ L with
            | some c => ID_CONTINUE c | none => false) = true
      simp only [Lexer.peek_or_eof]
      rw [show (⟨src, n⟩ : Lexer).next + L = n + L from rfl, hc]
      exact hid⟩]
  unfold lex_identifier
  dsimp only
  simp only [Lexer.skip_expect, Lexer.consume, Lexer.while_chars, Lexer.checkpoint]
  have hdrop1 : src.drop (n + 1) = ys := by
    rw [← List.tail_drop, hys]
    rfl
  have hcnt : countWhile ID_CONTINUE (src.drop n) =
      countWhile ID_CONTINUE (src.drop (n + 1)) + 1 := by
    rw [hys, hdrop1, countWhile_cons_true ys hheada]
  rw [hcnt, show n + 1 + countWhile ID_CONTINUE (src.drop (n + 1)) =
    n + (countWhile ID_CONTINUE (src.drop (n + 1)) + 1) from by omega]

/-- C2 (witness): on `ifoo` the matcher matches the keyword pattern `if`, the
following byte `o` is ID_CONTINUE, and the emitted token is the identifier
`ifoo` spanning all four bytes. -/
theorem c2_witness :
    bestMatch PATTERNS ((strBytes "ifoo").drop 0) = some (.KeywordIf, 2) ∧
    lex_next ⟨strBytes "ifoo", 0⟩ .Standard =
      .ok (⟨0, 4, .Identifier, false⟩, ⟨strBytes "ifoo", 4⟩) :=
  ⟨by decide, by
    exact c2_keyword_prefix_is_identifier (strBytes "ifoo") 0 .Standard .KeywordIf 2 111
      (by decide) (by decide) (by decide) (by decide) (by decide)⟩
